import Mathlib

/-!
Shallow embedding of the core of the TCIA data retriever (Go sources:
`download.go`, `http_utils.go`, `main.go`) together with proofs about the
behaviour its specification describes.

Conventions used throughout:

* Go strings are Lean `String`s; the helpers `strContains` / `strReplaceFirst`
  mirror `strings.Contains` and `strings.Replace(s, old, new, 1)`.
* Filesystem paths handled by the archive extractor are modelled at the
  component level (`List String`, split on the path separator), which is the
  level at which `filepath.Clean` / `filepath.Join` operate lexically.
* I/O effects are modelled either as explicit traces of operations (`FsOp`,
  `DlEvent`) or as an abstract filesystem snapshot (`Filesystem`).
  I/O *errors* other than "file does not exist" are outside the model.
* Machine integers (`int64`) are modelled as `Int` with Go's
  truncating division written `Int.div`; none of the embedded code paths
  overflow for the inputs considered.
-/

/-! ### String helpers mirroring Go's `strings` package -/

/-- Does the second list start with the first one?  (Helper for substring
search; `[DecidableEq α]` version so it also serves path-component lists.) -/
def listHasInit {α : Type} [DecidableEq α] : List α → List α → Bool
  | [], _ => true
  | _ :: _, [] => false
  | a :: p, b :: s => decide (a = b) && listHasInit p s

/-- Substring occurrence test on character lists. -/
def listContainsSub (s pat : List Char) : Bool :=
  match s with
  | [] => pat.isEmpty
  | _ :: t => listHasInit pat s || listContainsSub t pat

/-- Model of Go's `strings.Contains s pat`. -/
def strContains (s pat : String) : Bool :=
  listContainsSub s.data pat.data

/-- Replace the first occurrence of `pat` by `rep` (character-list level). -/
def replaceFirstSub : List Char → List Char → List Char → List Char
  | [], _, _ => []
  | c :: t, pat, rep =>
    if listHasInit pat (c :: t) then rep ++ (c :: t).drop pat.length
    else c :: replaceFirstSub t pat rep

/-- Model of Go's `strings.Replace s pat rep 1` (first occurrence only). -/
def strReplaceFirst (s pat rep : String) : String :=
  ⟨replaceFirstSub s.data pat.data rep.data⟩

/-- Model of Go's `strings.ContainsAny s "="` and similar single-character
membership tests. -/
def strContainsChar (s : String) (c : Char) : Bool :=
  s.data.any fun d => decide (d = c)

/-- Decimal digit accumulator for `parseInt64`. -/
def parseDecDigits : Nat → List Char → Option Nat
  | acc, [] => some acc
  | acc, c :: t =>
    if 48 ≤ c.toNat ∧ c.toNat ≤ 57 then parseDecDigits (10 * acc + (c.toNat - 48)) t
    else none

/-- Model of Go's `strconv.ParseInt(s, 10, 64)`: `none` when the string is not
a well-formed decimal integer (the 64-bit range check is outside the model;
no embedded code path feeds it an out-of-range literal). -/
def parseInt64 (s : String) : Option Int :=
  match s.data with
  | [] => none
  | '-' :: t => if t = [] then none else (parseDecDigits 0 t).map fun n => -(n : Int)
  | '+' :: t => if t = [] then none else (parseDecDigits 0 t).map fun n => (n : Int)
  | l => (parseDecDigits 0 l).map fun n => (n : Int)

/-! ### Retry classification (`download.go`, `isRetryableError`) -/

/-- Embedding of `isRetryableError` from `download.go`: a pure substring
classifier over the error message. -/
def isRetryableError (errStr : String) : Bool :=
  if strContains errStr "s5cmd command failed" then false
  else
    strContains errStr "timeout" ||
    strContains errStr "connection refused" ||
    strContains errStr "connection reset" ||
    strContains errStr "EOF" ||
    strContains errStr "incomplete download" ||
    strContains errStr "closed" ||
    strContains errStr "broken pipe" ||
    strContains errStr "429" ||
    strContains errStr "500" ||
    strContains errStr "502" ||
    strContains errStr "503" ||
    strContains errStr "504"

/-! ### Error message formats produced by `extractAndVerifyZip` and its caller -/

/-- Message of `fmt.Errorf("size mismatch: expected %d bytes, extracted %d bytes", ...)`. -/
def sizeMismatchMsg (expected extracted : Int) : String :=
  "size mismatch: expected " ++ toString expected ++ " bytes, extracted " ++
    toString extracted ++ " bytes"

/-- Per-file entry of the MD5 error list:
`fmt.Sprintf("%s: expected %s, got %s", name, expectedMD5, actualMD5)`. -/
def md5FileErrMsg (name expectedMD5 actualMD5 : String) : String :=
  name ++ ": expected " ++ expectedMD5 ++ ", got " ++ actualMD5

/-- Message of `fmt.Errorf("MD5 validation failed for %d files:\n%s", ...)`. -/
def md5ValidationFailedMsg (errs : List String) : String :=
  "MD5 validation failed for " ++ toString errs.length ++ " files:\n" ++
    String.intercalate "\n" errs

/-- Wrapper applied by `downloadFromTCIA`:
`fmt.Errorf("failed to extract/verify ZIP: %v", err)`. -/
def extractVerifyWrap (msg : String) : String :=
  "failed to extract/verify ZIP: " ++ msg

/-- Concrete archive-size-mismatch error as it reaches the retry classifier. -/
def integritySizeErr : String :=
  extractVerifyWrap (sizeMismatchMsg 1000 999)

/-- Concrete per-file MD5-mismatch error as it reaches the retry classifier. -/
def integrityMd5Err : String :=
  extractVerifyWrap (md5ValidationFailedMsg [md5FileErrMsg "img.dcm" "aaaa" "bbbb"])

/-- Concrete archive-size-mismatch error whose formatted expected size
(`500000000`) happens to contain the substring `500`, so the classifier
deems it retryable. -/
def retryableIntegritySizeErr : String :=
  extractVerifyWrap (sizeMismatchMsg 500000000 999)

/-! ### Download / retry event traces (`Download`, `DownloadWithRetry`) -/

/-- Observable events of one series download: the rate-shaping sleep from
`Download`, the backoff sleeps from `DownloadWithRetry`, and the attempts. -/
inductive DlEvent
  | sleepRequest (d : Nat)
  | sleepBackoff (d : Nat)
  | attempt (i : Nat)
deriving DecidableEq

/-- Event trace of the loop body of `DownloadWithRetry`: argument order is
`errOf` (outcome of each attempt, `none` = success), current backoff delay,
current attempt index, remaining loop iterations. -/
def retryEvents (errOf : Nat → Option String) : Nat → Nat → Nat → List DlEvent
  | _, _, 0 => []
  | delay, att, fuel + 1 =>
    let pre : List DlEvent := if att > 0 then [DlEvent.sleepBackoff delay] else []
    let delay2 := if att > 0 then delay * 2 else delay
    match errOf att with
    | none => pre ++ [DlEvent.attempt att]
    | some e =>
      if isRetryableError e then
        pre ++ [DlEvent.attempt att] ++ retryEvents errOf delay2 (att + 1) fuel
      else
        pre ++ [DlEvent.attempt att]

/-- Event trace of `DownloadWithRetry` (loop `for attempt := 0; attempt <= MaxRetries`). -/
def DownloadWithRetryEvents (retryDelay maxRetries : Nat)
    (errOf : Nat → Option String) : List DlEvent :=
  retryEvents errOf retryDelay 0 (maxRetries + 1)

/-- Event trace of `Download`: one `RequestDelay` sleep when positive, then the
retry loop. -/
def DownloadEvents (requestDelay retryDelay maxRetries : Nat)
    (errOf : Nat → Option String) : List DlEvent :=
  (if requestDelay > 0 then [DlEvent.sleepRequest requestDelay] else []) ++
    DownloadWithRetryEvents retryDelay maxRetries errOf

/-- Number of download attempts in a trace. -/
def attemptCount (tr : List DlEvent) : Nat :=
  tr.countP fun e => match e with | DlEvent.attempt _ => true | _ => false

/-- Number of request-delay sleeps in a trace. -/
def countReqSleeps (tr : List DlEvent) : Nat :=
  tr.countP fun e => match e with | DlEvent.sleepRequest _ => true | _ => false

/-- Scanner deciding "a request-delay sleep occurs before every attempt":
the Boolean argument records whether such a sleep has occurred since the
last attempt. -/
def reqSleepBeforeEachAttempt : Bool → List DlEvent → Bool
  | _, [] => true
  | _, DlEvent.sleepRequest _ :: t => reqSleepBeforeEachAttempt true t
  | saw, DlEvent.sleepBackoff _ :: t => reqSleepBeforeEachAttempt saw t
  | saw, DlEvent.attempt _ :: t => saw && reqSleepBeforeEachAttempt false t

/-! ### Manifest decoding (`decodeTCIA`) -/

/-- The series-UID collection loop of `decodeTCIA`: a line is kept exactly when
`!strings.ContainsAny(line, "=")`. -/
def decodeTCIASeriesIDs (lines : List String) : List String :=
  lines.filter fun line => !(strContainsChar line '=')

/-- Modelled from the spec's words ("All other non-empty lines are series
UIDs"): keeps only the non-empty lines without `=`.  Used solely to compare
the specification against `decodeTCIASeriesIDs`. -/
def specSeriesIDs (lines : List String) : List String :=
  lines.filter fun line => !(line == "") && !(strContainsChar line '=')

/-! ### Request layer (`http_utils.go`, `doRequest`) -/

/-- Outcome of `doRequest` as far as the fallback rule is concerned. -/
structure RequestOutcome where
  fallbackIssued : Bool
  finalURL : String
deriving DecidableEq

/-- Embedding of the fallback logic of `doRequest`: given the request URL and
the status of the first response, decide whether the one-shot v2→v1 fallback
request is issued and against which URL.  Transport errors and the
header/context cloning are outside this pure model. -/
def doRequestModel (url : String) (status : Nat) : RequestOutcome :=
  if strContains url "/v2/" then
    if status == 404 || (500 ≤ status && status ≤ 504) then
      { fallbackIssued := true, finalURL := strReplaceFirst url "/v2/" "/v1/" }
    else
      { fallbackIssued := false, finalURL := url }
  else
    { fallbackIssued := false, finalURL := url }

/-! ### Image-request timeout (`downloadFromTCIA`) -/

/-- Model of `strconv.ParseInt(s, 10, 64)` followed by discarding the error:
the parsed value, or `0` when the string does not parse. -/
def parseInt64OrZero (s : String) : Int :=
  (parseInt64 s).getD 0

/-- Embedding of the timeout computation of `downloadFromTCIA`, in minutes:
`5 min + 1 min per full 100 MiB` capped at `60`, or `30` when `FileSize` is
empty. -/
def downloadTimeoutMinutes (fileSize : String) : Int :=
  if fileSize ≠ "" then
    let fs := parseInt64OrZero fileSize
    let t : Int := 5 + Int.tdiv fs (100 * 1024 * 1024)
    if t > 60 then 60 else t
  else 30

/-! ### Metadata cache file operations (`saveMetadataToCache`, `GetMeta`) -/

/-- Filesystem operations relevant to how cache files are materialized. -/
inductive FsOp
  | mkdirAll (path : String)
  | writeFile (path : String)
  | rename (src dst : String)
deriving DecidableEq

/-- Embedding of `getMetadataCachePath`:
`filepath.Join(output, "metadata", seriesUID + ".json")`. -/
def getMetadataCachePath (output seriesUID : String) : String :=
  output ++ "/metadata/" ++ seriesUID ++ ".json"

/-- Directory of a path (`filepath.Dir`): drop the last component. -/
def dirOfPath (p : String) : String :=
  String.intercalate "/" (p.splitOn "/").dropLast

/-- Operation trace of `saveMetadataToCache`: ensure the directory, write the
`.tmp` sibling, rename it over the final path. -/
def saveMetadataToCacheOps (cachePath : String) : List FsOp :=
  [FsOp.mkdirAll (dirOfPath cachePath),
   FsOp.writeFile (cachePath ++ ".tmp"),
   FsOp.rename (cachePath ++ ".tmp") cachePath]

/-- Operation trace of `FileInfo.GetMeta`: it opens the *final* cache path with
`O_WRONLY|O_CREATE|O_TRUNC` and writes the record into it directly (the
open/write/close sequence is summarized as one direct write). -/
def GetMetaOps (output seriesUID : String) : List FsOp :=
  [FsOp.writeFile (getMetadataCachePath output seriesUID)]

/-- Does the trace create/replace `p` by a direct write (not a rename)? -/
def writesDirectlyTo (ops : List FsOp) (p : String) : Bool :=
  ops.any fun op =>
    match op with
    | FsOp.writeFile q => decide (q = p)
    | _ => false

/-! ### Worker-loop statistics (`main.go`) -/

/-- Abstract outcome of one work item as observed by the worker loop in
`main`: which branch conditions hold for this item. -/
structure ItemOutcome where
  isSpreadsheetInput : Bool
  getMetaOk : Bool
  needsNoForce : Bool
  needsForce : Bool
  downloadOk : Bool
  isSyncJob : Bool
deriving DecidableEq

/-- Which statistics counter the worker bumps for one item. -/
inductive StatBump
  | downloaded
  | synced
  | skipped
  | failed
deriving DecidableEq

/-- Embedding of the worker-loop body of `main`: the branch structure deciding
which counter receives the atomic increment for one item. -/
def workerStep (metaMode skipExisting : Bool) (it : ItemOutcome) : StatBump :=
  if metaMode then
    if it.isSpreadsheetInput then StatBump.skipped
    else if it.getMetaOk then StatBump.downloaded
    else StatBump.failed
  else
    if skipExisting && !it.needsNoForce then StatBump.skipped
    else if it.needsForce then
      if it.downloadOk then
        if it.isSyncJob then StatBump.synced else StatBump.downloaded
      else StatBump.failed
    else StatBump.skipped

/-- The four mutable counters of `DownloadStats` that the workers update. -/
structure Stats where
  downloaded : Nat
  synced : Nat
  skipped : Nat
  failed : Nat
deriving DecidableEq

/-- Apply one atomic counter increment. -/
def applyBump (s : Stats) : StatBump → Stats
  | StatBump.downloaded => { s with downloaded := s.downloaded + 1 }
  | StatBump.synced => { s with synced := s.synced + 1 }
  | StatBump.skipped => { s with skipped := s.skipped + 1 }
  | StatBump.failed => { s with failed := s.failed + 1 }

/-- Final counter values after the pool has consumed every work item.  The
increments are atomic adds of commuting counters, so the end-of-run totals do
not depend on the interleaving and a sequential fold models them. -/
def runStats (metaMode skipExisting : Bool) (items : List ItemOutcome) : Stats :=
  items.foldl (fun s it => applyBump s (workerStep metaMode skipExisting it)) ⟨0, 0, 0, 0⟩

/-! ### Download precondition (`FileInfo.NeedsDownload`) -/

/-- What `os.Stat` reports about an existing path. -/
structure FsEntry where
  isDir : Bool
deriving DecidableEq

/-- Abstract snapshot of the filesystem as consulted by `NeedsDownload`:
`stat` is `os.Stat` (`none` = does not exist) and `dirSize` is
`getDirectorySize` (recursive size of all regular files). -/
structure Filesystem where
  stat : String → Option FsEntry
  dirSize : String → Int

/-- The fields of the Go `FileInfo` struct that the embedded operations read. -/
structure FileInfo where
  seriesUID : String
  studyUID : String
  subjectID : String
  fileSize : String
  downloadURL : String
  s5cmdManifestPath : String
  isSyncJob : Bool
deriving DecidableEq

/-- Embedding of `FileInfo.getOutput`: `filepath.Join(output, SubjectID, StudyUID)`
(the directory-creation side effect is immaterial here). -/
def getOutputDir (info : FileInfo) (output : String) : String :=
  output ++ "/" ++ info.subjectID ++ "/" ++ info.studyUID

/-- Embedding of `FileInfo.DcimFiles`. -/
def DcimFiles (info : FileInfo) (output : String) : String :=
  getOutputDir info output ++ "/" ++ info.seriesUID

/-- Embedding of `FileInfo.NeedsDownload`.  Faithful to the source including
the `S5cmdManifestPath` and `DownloadURL` branches; `os.Stat` errors other
than non-existence are outside the model. -/
def NeedsDownload (fs : Filesystem) (info : FileInfo) (output : String)
    (force noDecompress : Bool) : Bool :=
  if force then true
  else if info.s5cmdManifestPath ≠ "" then true
  else if info.downloadURL ≠ "" then
    match fs.stat (output ++ "/" ++ info.seriesUID) with
    | none => true
    | some _ => false
  else
    let targetPath :=
      if noDecompress then DcimFiles info output ++ ".zip" else DcimFiles info output
    match fs.stat targetPath with
    | none => true
    | some st =>
      if noDecompress then st.isDir
      else if !st.isDir then true
      else if info.fileSize ≠ "" then
        match parseInt64 info.fileSize with
        | some expected => decide (fs.dirSize targetPath ≠ expected)
        | none => false
      else false

/-- Modelled from the claim's words alone: force ⇒ true; keep-zip mode: true
iff the `.zip` target is missing or a directory; extract mode: true iff the
series directory is missing, not a directory, or has a recursive size
different from a known expected size.  Used solely for comparison with
`NeedsDownload`. -/
def needsDownloadClaim (fs : Filesystem) (info : FileInfo) (output : String)
    (force noDecompress : Bool) : Bool :=
  if force then true
  else if noDecompress then
    match fs.stat (DcimFiles info output ++ ".zip") with
    | none => true
    | some st => st.isDir
  else
    match fs.stat (DcimFiles info output) with
    | none => true
    | some st =>
      !st.isDir ||
        (match parseInt64 info.fileSize with
         | some expected => decide (fs.dirSize (DcimFiles info output) ≠ expected)
         | none => false)

/-- The amended precondition: like the claim, but with the two additional
source branches (`S5cmdManifestPath` forces a download; `DownloadURL` checks
bare existence of `<output>/<seriesUID>`). -/
def needsDownloadAmended (fs : Filesystem) (info : FileInfo) (output : String)
    (force noDecompress : Bool) : Bool :=
  if force then true
  else if info.s5cmdManifestPath ≠ "" then true
  else if info.downloadURL ≠ "" then (fs.stat (output ++ "/" ++ info.seriesUID)).isNone
  else needsDownloadClaim fs info output false noDecompress

/-- Concrete filesystem for the `NeedsDownload` counterexample: only the
series ZIP exists, as a regular file. -/
def c8fs : Filesystem :=
  { stat := fun p => if p = "out/S/Y/U.zip" then some ⟨false⟩ else none
    dirSize := fun _ => 0 }

/-- Concrete record for the `NeedsDownload` counterexample: an s5cmd manifest
series. -/
def c8info : FileInfo :=
  { seriesUID := "U", studyUID := "Y", subjectID := "S", fileSize := ""
    downloadURL := "", s5cmdManifestPath := "s5cmd-tmp-U", isSyncJob := false }

/-! ### Lexical path cleaning (`filepath.Clean` / `filepath.Join`)

Paths are handled at the component level: a path is its list of components
between separators.  `cleanComps` is `filepath.Clean` for such lists: it
drops empty and `.` components and lets `..` consume the preceding
component, keeping unconsumed leading `..`s.  `filepath.Join(dir, name)`
is then `cleanComps` of the concatenated component lists. -/

/-- One step of lexical cleaning; the accumulator holds the cleaned
components in reverse order. -/
def cleanPush (stack : List String) (c : String) : List String :=
  if c = "" ∨ c = "." then stack
  else if c = ".." then
    match stack with
    | [] => [".."]
    | top :: rest => if top = ".." then c :: top :: rest else rest
  else c :: stack

/-- Component-level model of `filepath.Clean`. -/
def cleanComps (l : List String) : List String :=
  (l.foldl cleanPush []).reverse

/-- `p` lies strictly inside the root `root`: the guard
`strings.HasPrefix(path, filepath.Clean(destDir)+Separator)` at the
component level (for cleaned paths, string prefix up to a separator is
exactly strict component-prefix). -/
def StrictlyInside (root p : List String) : Prop :=
  listHasInit root p = true ∧ root.length < p.length

instance (root p : List String) : Decidable (StrictlyInside root p) := by
  unfold StrictlyInside; infer_instance

/-! ### Archive extraction with verification (`extractAndVerifyZip`,
`parseMD5HashesCSV`) -/

/-- An archive entry as seen by the extractor: its name (component list of
`file.Name`), directory flag, uncompressed byte count, the MD5 digest the
hasher computes for its content, and its content read as CSV rows (only
meaningful for the hash-manifest entry). -/
structure ZipEntry where
  name : List String
  isDir : Bool
  size : Nat
  md5 : String
  csvRows : List (List String)
deriving DecidableEq

/-- First-match association lookup (Go map reads are modelled on the
association list the extractor receives). -/
def lookupName (m : List (List String × String)) (n : List String) : Option String :=
  match m with
  | [] => none
  | (k, v) :: t => if k = n then some v else lookupName t n

/-- Mutable state of the extraction loop. -/
structure ExtractState where
  writes : List (List String)
  total : Int
  md5Errs : List String
deriving DecidableEq

/-- Result of `extractAndVerifyZip`: the file paths written (in order) and
the error, if any. -/
structure ExtractResult where
  writes : List (List String)
  err : Option String
deriving DecidableEq

/-- Render an entry name for error messages (`file.Name`). -/
def joinedName (n : List String) : String :=
  String.intercalate "/" n

/-- Message of `fmt.Errorf("invalid file path in zip: %s", file.Name)`. -/
def invalidPathMsg (n : List String) : String :=
  "invalid file path in zip: " ++ joinedName n

/-- The extraction loop of `extractAndVerifyZip` followed by its final
verification: skip the entry named exactly `md5hashes.csv`; refuse entries
whose joined path is not strictly inside the destination root; create
directories silently; write files while hashing the ones listed in the MD5
map; then report collected MD5 mismatches, and in MD5 mode a total size
mismatch.  Directory creation and I/O failures are outside the model. -/
def extractGo (destDir : List String) (md5Map : List (List String × String))
    (md5Mode : Bool) (expectedSize : Int) :
    List ZipEntry → ExtractState → ExtractResult
  | [], st =>
    if st.md5Errs ≠ [] then
      { writes := st.writes, err := some (md5ValidationFailedMsg st.md5Errs) }
    else if 0 < expectedSize ∧ st.total ≠ expectedSize then
      if md5Mode then
        { writes := st.writes, err := some (sizeMismatchMsg expectedSize st.total) }
      else
        { writes := st.writes, err := none }
    else
      { writes := st.writes, err := none }
  | e :: rest, st =>
    if e.name = ["md5hashes.csv"] then
      extractGo destDir md5Map md5Mode expectedSize rest st
    else
      let path := cleanComps (destDir ++ e.name)
      if StrictlyInside (cleanComps destDir) path then
        if e.isDir then
          extractGo destDir md5Map md5Mode expectedSize rest st
        else
          let found := lookupName md5Map e.name
          let isImaging := found.isSome
          let expMD5 := found.getD ""
          let newErrs :=
            if isImaging ∧ expMD5 ≠ "" ∧ e.md5 ≠ expMD5 then
              st.md5Errs ++ [md5FileErrMsg (joinedName e.name) expMD5 e.md5]
            else st.md5Errs
          let newTotal :=
            if md5Mode then
              if isImaging then st.total + (e.size : Int) else st.total
            else st.total + (e.size : Int)
          extractGo destDir md5Map md5Mode expectedSize rest
            { writes := st.writes ++ [path], total := newTotal, md5Errs := newErrs }
      else
        { writes := st.writes, err := some (invalidPathMsg e.name) }

/-- Embedding of `extractAndVerifyZip`: MD5 mode is on exactly when the map
is non-empty, and the loop starts from the empty state. -/
def extractAndVerifyZip (destDir : List String) (md5Map : List (List String × String))
    (expectedSize : Int) (entries : List ZipEntry) : ExtractResult :=
  extractGo destDir md5Map (!md5Map.isEmpty) expectedSize entries ⟨[], 0, []⟩

/-- Embedding of the map-building loop of `parseMD5HashesCSV`: skip the
header row (index 0) and rows with fewer than two columns, map first column
to second. -/
def buildMd5Map (rows : List (List String)) : List (String × String) :=
  (rows.drop 1).filterMap fun r =>
    match r with
    | k :: v :: _ => some (k, v)
    | _ => none

/-- Embedding of `parseMD5HashesCSV`: find the first entry named exactly
`md5hashes.csv`, build the map from its rows, or fail when absent. -/
def parseMD5HashesCSV (entries : List ZipEntry) : Except String (List (String × String)) :=
  match entries.find? (fun e => decide (e.name = ["md5hashes.csv"])) with
  | some e => Except.ok (buildMd5Map e.csvRows)
  | none => Except.error "md5hashes.csv not found in ZIP"

/-! ## Helper lemmas -/

/-- Appending the `.tmp` suffix never yields the original path. -/
theorem append_tmp_ne (p : String) : p ++ ".tmp" ≠ p := by
  intro h
  have h2 := congrArg String.length h
  rw [String.length_append] at h2
  have h3 : (".tmp" : String).length = 4 := rfl
  omega

/-- The empty field never parses as an integer. -/
theorem parseInt64_nil : parseInt64 "" = none := rfl

/-- Counting request-delay sleeps distributes over concatenation. -/
theorem countReqSleeps_append (a b : List DlEvent) :
    countReqSleeps (a ++ b) = countReqSleeps a + countReqSleeps b := by
  simp [countReqSleeps, List.countP_append]

/-- The retry loop of `DownloadWithRetry` never emits a request-delay sleep:
its only sleeps are the backoff sleeps. -/
theorem countReqSleeps_retryEvents (errOf : Nat → Option String) :
    ∀ (fuel delay att : Nat), countReqSleeps (retryEvents errOf delay att fuel) = 0 := by
  intro fuel
  induction fuel with
  | zero => intro delay att; rfl
  | succ n ih =>
    intro delay att
    have htail := ih (if att > 0 then delay * 2 else delay) (att + 1)
    rw [retryEvents]
    rcases h : errOf att with - | e
    · by_cases ha : att > 0 <;>
        simp [h, ha, countReqSleeps, List.countP_cons, List.countP_append]
    · by_cases hr : isRetryableError e <;> by_cases ha : att > 0 <;>
        simp [h, hr, ha, countReqSleeps, List.countP_cons, List.countP_append] at htail ⊢ <;>
        exact htail

/-! ## C1 — retry classification of archive integrity errors -/

/-- Claim C1 is false on the code: the integrity error messages produced by
`extractAndVerifyZip` (total size mismatch, per-file MD5 mismatch), as wrapped
by `downloadFromTCIA`, contain none of the substrings `isRetryableError`
looks for, so `DownloadWithRetry` stops after the single failing attempt
instead of sleeping and re-attempting. -/
theorem retry_integrity_counterexample :
    isRetryableError integritySizeErr = false ∧
    isRetryableError integrityMd5Err = false ∧
    DownloadWithRetryEvents 10 3 (fun _ => some integritySizeErr) = [DlEvent.attempt 0] := by
  decide

/-- Claim C1 (amended): the retry classifier does not treat archive integrity
errors as a kind — `isRetryableError` decides by substring matching on the
rendered message, so whether a size- or hash-mismatch error is retried
depends on the digits of its formatted sizes and digests.  For every first
attempt failing with an error classified non-retryable (e.g. the size
mismatch `expected 1000 bytes, extracted 999 bytes`), `DownloadWithRetry`
returns it immediately: one attempt, no sleep; for every first attempt
failing with an error classified retryable (e.g. `expected 500000000 bytes`,
whose digits contain `500`), the loop sleeps the backoff delay and
re-attempts while attempts remain. -/
theorem retry_decided_by_message_substrings (retryDelay maxRetries : Nat)
    (errOf : Nat → Option String) (e : String) (h0 : errOf 0 = some e) :
    (isRetryableError e = false →
      DownloadWithRetryEvents retryDelay maxRetries errOf = [DlEvent.attempt 0]) ∧
    (isRetryableError e = true → 0 < maxRetries →
      ∃ rest, DownloadWithRetryEvents retryDelay maxRetries errOf =
        DlEvent.attempt 0 :: DlEvent.sleepBackoff retryDelay :: DlEvent.attempt 1 :: rest) ∧
    isRetryableError integritySizeErr = false ∧
    isRetryableError integrityMd5Err = false ∧
    isRetryableError retryableIntegritySizeErr = true := by
  refine ⟨?_, ?_, by decide, by decide, by decide⟩
  · intro hnr
    unfold DownloadWithRetryEvents
    rw [retryEvents]
    simp [h0, hnr]
  · intro hr hm
    obtain ⟨k, rfl⟩ : ∃ k, maxRetries = k + 1 := ⟨maxRetries - 1, by omega⟩
    rcases h1 : errOf 1 with - | e1
    · refine ⟨[], ?_⟩
      simp [DownloadWithRetryEvents, retryEvents, h0, hr, h1]
    · by_cases hr1 : isRetryableError e1 = true
      · refine ⟨retryEvents errOf (retryDelay * 2) 2 k, ?_⟩
        simp [DownloadWithRetryEvents, retryEvents, h0, hr, h1, hr1]
      · refine ⟨[], ?_⟩
        simp [DownloadWithRetryEvents, retryEvents, h0, hr, h1, hr1]

/-- Witness for `retry_decided_by_message_substrings`: the 1000/999 size
mismatch stops the loop after one attempt, while the 500000000/999 size
mismatch is followed by a backoff sleep and a second attempt. -/
theorem retry_decided_by_message_substrings_witness :
    DownloadWithRetryEvents 10 3 (fun _ => some integritySizeErr) = [DlEvent.attempt 0] ∧
    ∃ rest, DownloadWithRetryEvents 10 3 (fun _ => some retryableIntegritySizeErr) =
      DlEvent.attempt 0 :: DlEvent.sleepBackoff 10 :: DlEvent.attempt 1 :: rest :=
  ⟨(retry_decided_by_message_substrings 10 3 (fun _ => some integritySizeErr)
      integritySizeErr rfl).1 (by decide),
   (retry_decided_by_message_substrings 10 3 (fun _ => some retryableIntegritySizeErr)
      retryableIntegritySizeErr rfl).2.1 (by decide) (by decide)⟩

/-! ## C2 — metadata cache files and write-then-rename -/

/-- Claim C2 is false on the code: `FileInfo.GetMeta` opens the final cache
path `<output>/metadata/<uid>.json` with `O_WRONLY|O_CREATE|O_TRUNC` and
writes it directly, with no temporary sibling and no rename. -/
theorem metadata_direct_write_counterexample :
    writesDirectlyTo (GetMetaOps "out" "1.2.3") (getMetadataCachePath "out" "1.2.3") = true := by
  decide

/-- Claim C2 (amended): `saveMetadataToCache` indeed materializes the cache
file only by renaming the fully written `.tmp` sibling over it and performs
no direct write at the final path, but `GetMeta` — invoked after every
successful non-spreadsheet download and in metadata-only mode — creates the
same final path by a direct truncating write, so the write-then-rename
invariant does not hold for every component. -/
theorem metadata_cache_write_discipline (cachePath output seriesUID : String) :
    writesDirectlyTo (saveMetadataToCacheOps cachePath) cachePath = false ∧
    FsOp.rename (cachePath ++ ".tmp") cachePath ∈ saveMetadataToCacheOps cachePath ∧
    writesDirectlyTo (GetMetaOps output seriesUID) (getMetadataCachePath output seriesUID) = true := by
  refine ⟨?_, ?_, ?_⟩
  · simp [writesDirectlyTo, saveMetadataToCacheOps, append_tmp_ne cachePath]
  · simp [saveMetadataToCacheOps]
  · simp [writesDirectlyTo, GetMetaOps]

/-! ## C3 — request-delay placement -/

/-- Claim C3 is false on the code: with a positive `request_delay`, a failing
retryable first attempt is followed only by the backoff sleep — no
`request_delay` sleep precedes the second attempt.  The full trace at
`request_delay = 5`, `retry_delay = 10`, `max_retries = 1` is shown. -/
theorem request_delay_counterexample :
    DownloadEvents 5 10 1 (fun _ => some "timeout") =
      [DlEvent.sleepRequest 5, DlEvent.attempt 0, DlEvent.sleepBackoff 10, DlEvent.attempt 1] ∧
    reqSleepBeforeEachAttempt false (DownloadEvents 5 10 1 (fun _ => some "timeout")) = false := by
  decide

/-- Claim C3 (amended): when `request_delay` is positive it is slept exactly
once per series, before the first attempt (`Download` sleeps, then calls
`DownloadWithRetry`); the retry loop emits no further request-delay sleeps,
only backoff sleeps. -/
theorem request_delay_once_per_series (requestDelay retryDelay maxRetries : Nat)
    (errOf : Nat → Option String) (h : 0 < requestDelay) :
    DownloadEvents requestDelay retryDelay maxRetries errOf =
      DlEvent.sleepRequest requestDelay :: DownloadWithRetryEvents retryDelay maxRetries errOf ∧
    countReqSleeps (DownloadEvents requestDelay retryDelay maxRetries errOf) = 1 := by
  have h1 : DownloadEvents requestDelay retryDelay maxRetries errOf =
      DlEvent.sleepRequest requestDelay :: DownloadWithRetryEvents retryDelay maxRetries errOf := by
    simp [DownloadEvents, h]
  refine ⟨h1, ?_⟩
  rw [h1]
  have h2 := countReqSleeps_retryEvents errOf (maxRetries + 1) retryDelay 0
  simp only [countReqSleeps, List.countP_cons, DownloadWithRetryEvents] at h2 ⊢
  simp [h2]

/-- Witness for `request_delay_once_per_series` at concrete settings. -/
theorem request_delay_once_per_series_witness :
    DownloadEvents 5 10 1 (fun _ => some "connection reset") =
      DlEvent.sleepRequest 5 :: DownloadWithRetryEvents 10 1 (fun _ => some "connection reset") ∧
    countReqSleeps (DownloadEvents 5 10 1 (fun _ => some "connection reset")) = 1 :=
  request_delay_once_per_series 5 10 1 (fun _ => some "connection reset") (by decide)

/-! ## C4 — manifest line filtering -/

/-- Claim C4 is false on the code: `decodeTCIA` keeps *every* line without
`=`, including empty lines, so an empty line contributes an (empty) series
UID, unlike the non-empty-lines-only list the claim describes. -/
theorem decode_tcia_empty_line_counterexample :
    decodeTCIASeriesIDs ["1.2.3", "", "key=value"] = ["1.2.3", ""] ∧
    specSeriesIDs ["1.2.3", "", "key=value"] = ["1.2.3"] ∧
    decodeTCIASeriesIDs ["1.2.3", "", "key=value"] ≠
      specSeriesIDs ["1.2.3", "", "key=value"] := by
  decide

/-- Claim C4 (amended): the series-UID list produced by `decodeTCIA` contains
exactly the lines that do not contain `=` — empty lines included — in
manifest order (it is a sublist of the manifest's line sequence). -/
theorem decode_tcia_keeps_eq_free_lines (lines : List String) :
    List.Sublist (decodeTCIASeriesIDs lines) lines ∧
    ∀ l, l ∈ decodeTCIASeriesIDs lines ↔ l ∈ lines ∧ strContainsChar l '=' = false := by
  constructor
  · exact List.filter_sublist lines
  · intro l
    simp [decodeTCIASeriesIDs, List.mem_filter]

/-! ## C5 — path-traversal guard of the extractor -/

/-- Every path the extraction loop writes lies strictly inside the cleaned
destination root, provided the paths already written do. -/
theorem extractGo_writes_inside (destDir : List String) (md5Map : List (List String × String))
    (md5Mode : Bool) (expectedSize : Int) :
    ∀ (entries : List ZipEntry) (st : ExtractState),
      (∀ p ∈ st.writes, StrictlyInside (cleanComps destDir) p) →
      ∀ p ∈ (extractGo destDir md5Map md5Mode expectedSize entries st).writes,
        StrictlyInside (cleanComps destDir) p := by
  intro entries
  induction entries with
  | nil =>
    intro st hst p hp
    simp only [extractGo] at hp
    split_ifs at hp <;> exact hst p hp
  | cons e rest ih =>
    intro st hst p hp
    rw [extractGo] at hp
    by_cases hskip : e.name = ["md5hashes.csv"]
    · rw [if_pos hskip] at hp
      exact ih st hst p hp
    · rw [if_neg hskip] at hp
      by_cases hin : StrictlyInside (cleanComps destDir) (cleanComps (destDir ++ e.name))
      · rw [if_pos hin] at hp
        by_cases hdir : e.isDir = true
        · rw [if_pos hdir] at hp
          exact ih st hst p hp
        · rw [if_neg hdir] at hp
          refine ih _ ?_ p hp
          intro q hq
          rcases List.mem_append.mp hq with hq | hq
          · exact hst q hq
          · rw [List.mem_singleton.mp hq]
            exact hin
      · rw [if_neg hin] at hp
        exact hst p hp

/-- If some entry other than the skipped hash manifest has a joined path that
is not strictly inside the root, the extraction loop reports an error. -/
theorem extractGo_escaping_entry_errs (destDir : List String)
    (md5Map : List (List String × String)) (md5Mode : Bool) (expectedSize : Int) :
    ∀ (entries : List ZipEntry) (st : ExtractState) (e : ZipEntry),
      e ∈ entries → e.name ≠ ["md5hashes.csv"] →
      ¬ StrictlyInside (cleanComps destDir) (cleanComps (destDir ++ e.name)) →
      (extractGo destDir md5Map md5Mode expectedSize entries st).err.isSome = true := by
  intro entries
  induction entries with
  | nil =>
    intro st e he
    exact absurd he (List.not_mem_nil e)
  | cons a rest ih =>
    intro st e he hname hesc
    rcases List.mem_cons.mp he with rfl | he'
    · rw [extractGo, if_neg hname]
      rw [if_neg hesc]
      rfl
    · rw [extractGo]
      by_cases hskip : a.name = ["md5hashes.csv"]
      · rw [if_pos hskip]
        exact ih st e he' hname hesc
      · rw [if_neg hskip]
        by_cases hin : StrictlyInside (cleanComps destDir) (cleanComps (destDir ++ a.name))
        · rw [if_pos hin]
          by_cases hdir : a.isDir = true
          · rw [if_pos hdir]
            exact ih st e he' hname hesc
          · rw [if_neg hdir]
            exact ih _ e he' hname hesc
        · rw [if_neg hin]
          rfl

/-- Claim C5 (confirmed): every file `extractAndVerifyZip` writes is at a path
strictly inside the destination root, and any archive entry (other than the
never-materialized `md5hashes.csv` manifest, whose single-component path
cannot escape) whose cleaned joined path does not lie strictly inside the
root makes the function return an error; in particular such an entry is
never written. -/
theorem extract_zip_path_traversal_guard (destDir : List String)
    (md5Map : List (List String × String)) (expectedSize : Int) (entries : List ZipEntry) :
    (∀ p ∈ (extractAndVerifyZip destDir md5Map expectedSize entries).writes,
        StrictlyInside (cleanComps destDir) p) ∧
    (∀ e ∈ entries, e.name ≠ ["md5hashes.csv"] →
        ¬ StrictlyInside (cleanComps destDir) (cleanComps (destDir ++ e.name)) →
        (extractAndVerifyZip destDir md5Map expectedSize entries).err.isSome = true) := by
  constructor
  · refine extractGo_writes_inside destDir md5Map _ expectedSize entries ⟨[], 0, []⟩ ?_
    intro p hp
    exact absurd hp (List.not_mem_nil p)
  · intro e he h1 h2
    exact extractGo_escaping_entry_errs destDir md5Map _ expectedSize entries ⟨[], 0, []⟩ e he h1 h2

/-- Witness for `extract_zip_path_traversal_guard`: a benign entry is written
strictly inside the root, and a `../`-traversal entry forces an error. -/
theorem extract_zip_path_traversal_guard_witness :
    StrictlyInside (cleanComps ["out"]) ["out", "a.dcm"] ∧
    (extractAndVerifyZip ["out"] [] 0 [⟨["..", "evil"], false, 7, "h", []⟩]).err.isSome = true :=
  ⟨(extract_zip_path_traversal_guard ["out"] [] 0 [⟨["a.dcm"], false, 7, "h", []⟩]).1
      ["out", "a.dcm"] (by decide),
   (extract_zip_path_traversal_guard ["out"] [] 0 [⟨["..", "evil"], false, 7, "h", []⟩]).2
      ⟨["..", "evil"], false, 7, "h", []⟩ (by decide) (by decide) (by decide)⟩

/-! ## C6 — v2 → v1 fallback rule -/

/-- Claim C6 is false on the code: status 505 is a 5xx status, the URL
contains the newer version segment, and yet `doRequest` issues no fallback —
the source restricts the fallback to 404 and 500–504. -/
theorem doRequest_5xx_counterexample :
    strContains "https://h/v2/a" "/v2/" = true ∧
    500 ≤ 505 ∧ 505 ≤ 599 ∧
    doRequestModel "https://h/v2/a" 505 =
      { fallbackIssued := false, finalURL := "https://h/v2/a" } := by
  decide

/-- Claim C6 (amended): the single fallback request is issued exactly when the
URL contains `/v2/` and the first response status is 404 or lies in 500–504
(not every 5xx); it targets the URL with the first `/v2/` replaced by
`/v1/`; in every other case the first response is returned unchanged, with
no fallback. -/
theorem doRequest_fallback_characterization (url : String) (status : Nat) :
    ((doRequestModel url status).fallbackIssued = true ↔
      strContains url "/v2/" = true ∧ (status = 404 ∨ (500 ≤ status ∧ status ≤ 504))) ∧
    ((doRequestModel url status).fallbackIssued = true →
      (doRequestModel url status).finalURL = strReplaceFirst url "/v2/" "/v1/") ∧
    ((doRequestModel url status).fallbackIssued = false →
      (doRequestModel url status).finalURL = url) := by
  unfold doRequestModel
  by_cases hc : strContains url "/v2/" = true
  · by_cases hs : (status == 404 || (500 ≤ status && status ≤ 504)) = true
    · simp only [hc, hs, if_true]
      simp only [Bool.or_eq_true, beq_iff_eq, Bool.and_eq_true, decide_eq_true_eq] at hs
      simp [hc, hs]
    · have hs2 : ¬(status = 404 ∨ (500 ≤ status ∧ status ≤ 504)) := by
        intro h
        apply hs
        rcases h with h | ⟨h1, h2⟩
        · simp [h]
        · simp [h1, h2]
      simp [hc, hs, hs2]
  · simp only [hc, if_false]
    simp [hc]

/-- Witness for `doRequest_fallback_characterization`: a 503 on a `/v2/`
URL is retried against `/v1/`, while a 301 is returned unchanged. -/
theorem doRequest_fallback_characterization_witness :
    (doRequestModel "https://h/v2/a" 503).finalURL = strReplaceFirst "https://h/v2/a" "/v2/" "/v1/" ∧
    (doRequestModel "https://h/v2/a" 301).finalURL = "https://h/v2/a" :=
  ⟨(doRequest_fallback_characterization "https://h/v2/a" 503).2.1 (by decide),
   (doRequest_fallback_characterization "https://h/v2/a" 301).2.2 (by decide)⟩

/-! ## C7 — size-adaptive image-request deadline -/

/-- Claim C7 (confirmed): when the declared uncompressed size is a known
value `n ≥ 0` (a non-empty, parseable `FileSize` field), the context
deadline is `min (5 + n / 100MiB) 60` minutes — five minutes plus one minute
per full 100 MiB, capped at 60; when the size is unknown (empty field) it is
30 minutes. -/
theorem download_timeout_formula (s : String) (n : Int) :
    (s ≠ "" → parseInt64 s = some n → 0 ≤ n →
      downloadTimeoutMinutes s = min (5 + Int.tdiv n (100 * 1024 * 1024)) 60) ∧
    (s = "" → downloadTimeoutMinutes s = 30) := by
  constructor
  · intro h1 h2 _h3
    unfold downloadTimeoutMinutes parseInt64OrZero
    rw [if_pos h1, h2]
    simp only [Option.getD_some]
    generalize 5 + Int.tdiv n (100 * 1024 * 1024) = t
    by_cases ht : t > 60
    · rw [if_pos ht, min_eq_right (by omega : (60 : Int) ≤ t)]
    · rw [if_neg ht, min_eq_left (by omega : t ≤ (60 : Int))]
  · intro h
    rw [h]
    rfl

/-- Witness for `download_timeout_formula`: a 1 GiB series gets a 15-minute
deadline and an unknown size gets 30 minutes. -/
theorem download_timeout_formula_witness :
    downloadTimeoutMinutes "1073741824" = min (5 + Int.tdiv 1073741824 (100 * 1024 * 1024)) 60 ∧
    downloadTimeoutMinutes "" = 30 :=
  ⟨(download_timeout_formula "1073741824" 1073741824).1 (by decide) (by decide) (by decide),
   (download_timeout_formula "" 0).2 rfl⟩

/-! ## C8 — the NeedsDownload precondition -/

/-- Claim C8 is false on the code: for a record carrying an s5cmd manifest
path, `NeedsDownload` returns true unconditionally, even in keep-zip mode
with the `<series_uid>.zip` target present as a regular file, where the
claim's case analysis requires false. -/
theorem needs_download_s5cmd_counterexample :
    NeedsDownload c8fs c8info "out" false true = true ∧
    needsDownloadClaim c8fs c8info "out" false true = false := by
  decide

/-- Claim C8 (amended): `NeedsDownload` behaves as the claim describes for
ordinary TCIA records, but two source branches precede the mode logic: a
record with a non-empty `S5cmdManifestPath` always needs downloading, and a
record with a non-empty `DownloadURL` needs downloading exactly when
`<output>/<series_uid>` does not exist.  For all inputs the function equals
this amended decision table. -/
theorem needs_download_characterization (fs : Filesystem) (info : FileInfo)
    (output : String) (force noDecompress : Bool) :
    NeedsDownload fs info output force noDecompress =
      needsDownloadAmended fs info output force noDecompress := by
  by_cases hf : force = true
  · simp [NeedsDownload, needsDownloadAmended, hf]
  · by_cases h5 : info.s5cmdManifestPath = ""
    · by_cases hu : info.downloadURL = ""
      · by_cases hd : noDecompress = true
        · simp only [NeedsDownload, needsDownloadAmended, needsDownloadClaim, hf, h5, hu, hd,
            ne_eq, not_true_eq_false, not_false_eq_true, if_false, if_true]
          cases hstat : fs.stat (DcimFiles info output ++ ".zip") <;> simp [hstat]
        · simp only [NeedsDownload, needsDownloadAmended, needsDownloadClaim, hf, h5, hu, hd,
            ne_eq, not_true_eq_false, not_false_eq_true, if_false, if_true]
          cases hstat : fs.stat (DcimFiles info output) with
          | none => simp [hstat]
          | some st =>
            by_cases hdir : st.isDir = true
            · by_cases hfs : info.fileSize = ""
              · simp [hstat, hdir, hfs, parseInt64_nil]
              · cases hp : parseInt64 info.fileSize <;> simp [hstat, hdir, hfs, hp]
            · simp [hstat, hdir]
      · simp only [NeedsDownload, needsDownloadAmended, hf, h5, hu, ne_eq, not_true_eq_false,
          not_false_eq_true, if_false, if_true]
        cases hstat : fs.stat (output ++ "/" ++ info.seriesUID) <;> simp [hstat]
    · simp [NeedsDownload, needsDownloadAmended, hf, h5]

/-! ## C9 — end-of-run counter identity -/

/-- Claim C9 is false on the code: a successful s5cmd sync job bumps the
fourth counter `Synced`, so a run consisting of one such item ends with
`downloaded + skipped + failed = 0 ≠ 1 = total`. -/
theorem stats_sync_counterexample :
    runStats false false [⟨false, true, true, true, true, true⟩] = ⟨0, 1, 0, 0⟩ ∧
    (runStats false false [⟨false, true, true, true, true, true⟩]).downloaded +
      (runStats false false [⟨false, true, true, true, true, true⟩]).skipped +
      (runStats false false [⟨false, true, true, true, true, true⟩]).failed ≠
      ([⟨false, true, true, true, true, true⟩] : List ItemOutcome).length := by
  decide

/-- Each item's branch of the worker loop bumps exactly one of the four
counters, so the four-way sum grows by one per item over any fold prefix. -/
theorem runStats_sum_aux (metaMode skipExisting : Bool) :
    ∀ (items : List ItemOutcome) (init : Stats),
      ((items.foldl (fun s it => applyBump s (workerStep metaMode skipExisting it)) init).downloaded +
        (items.foldl (fun s it => applyBump s (workerStep metaMode skipExisting it)) init).synced +
        (items.foldl (fun s it => applyBump s (workerStep metaMode skipExisting it)) init).skipped +
        (items.foldl (fun s it => applyBump s (workerStep metaMode skipExisting it)) init).failed) =
      init.downloaded + init.synced + init.skipped + init.failed + items.length := by
  intro items
  induction items with
  | nil => intro init; simp
  | cons it rest ih =>
    intro init
    rw [List.foldl_cons, ih]
    cases h : workerStep metaMode skipExisting it <;>
      simp [applyBump, List.length_cons] <;> omega

/-- Claim C9 (amended): at the end of every run the counters satisfy
`downloaded + synced + skipped + failed = total`, where `total` is the
number of dispatched work items — the claim's identity with the `Synced`
counter added. -/
theorem stats_counter_identity (metaMode skipExisting : Bool) (items : List ItemOutcome) :
    (runStats metaMode skipExisting items).downloaded +
      (runStats metaMode skipExisting items).synced +
      (runStats metaMode skipExisting items).skipped +
      (runStats metaMode skipExisting items).failed = items.length := by
  have h := runStats_sum_aux metaMode skipExisting items ⟨0, 0, 0, 0⟩
  simpa [runStats] using h

/-! ## C10 — exact-name handling of the hash manifest -/

/-- Claim C10 (confirmed): extraction skips precisely the entries whose name
is the exact string `md5hashes.csv` (such an entry leaves the loop state
untouched), while a file entry with any other name — for example
`sub/md5hashes.csv` inside a subdirectory — is written like any other file;
`parseMD5HashesCSV` builds the hash map only from the first entry named
exactly `md5hashes.csv` and returns an error when no entry has that exact
name. -/
theorem md5_manifest_exact_name (destDir : List String) (md5Map : List (List String × String))
    (md5Mode : Bool) (expectedSize : Int) (e : ZipEntry) (rest entries : List ZipEntry)
    (st : ExtractState) :
    (e.name = ["md5hashes.csv"] →
      extractGo destDir md5Map md5Mode expectedSize (e :: rest) st =
        extractGo destDir md5Map md5Mode expectedSize rest st) ∧
    (e.name ≠ ["md5hashes.csv"] → e.isDir = false →
      StrictlyInside (cleanComps destDir) (cleanComps (destDir ++ e.name)) →
      ∃ st2 : ExtractState,
        extractGo destDir md5Map md5Mode expectedSize (e :: rest) st =
          extractGo destDir md5Map md5Mode expectedSize rest st2 ∧
        st2.writes = st.writes ++ [cleanComps (destDir ++ e.name)]) ∧
    ((extractAndVerifyZip ["out"] [] 0 [⟨["sub", "md5hashes.csv"], false, 7, "h", []⟩]).writes =
        [["out", "sub", "md5hashes.csv"]] ∧
      (extractAndVerifyZip ["out"] [] 0 [⟨["sub", "md5hashes.csv"], false, 7, "h", []⟩]).err =
        none) ∧
    (parseMD5HashesCSV entries = Except.error "md5hashes.csv not found in ZIP" ↔
      ∀ x ∈ entries, ¬ x.name = ["md5hashes.csv"]) ∧
    (∀ x, List.find? (fun y => decide (y.name = ["md5hashes.csv"])) entries = some x →
      parseMD5HashesCSV entries = Except.ok (buildMd5Map x.csvRows)) := by
  refine ⟨?_, ?_, by decide, ?_, ?_⟩
  · intro h
    rw [extractGo, if_pos h]
  · intro hname hdir hin
    rw [extractGo, if_neg hname]
    rw [if_pos hin, if_neg (by simp [hdir] : ¬ e.isDir = true)]
    exact ⟨_, rfl, rfl⟩
  · constructor
    · intro h x hx
      unfold parseMD5HashesCSV at h
      cases hf : List.find? (fun y => decide (y.name = ["md5hashes.csv"])) entries with
      | none =>
        have := List.find?_eq_none.mp hf x hx
        simpa using this
      | some a =>
        rw [hf] at h
        simp at h
    · intro hall
      unfold parseMD5HashesCSV
      have hf : List.find? (fun y => decide (y.name = ["md5hashes.csv"])) entries = none := by
        apply List.find?_eq_none.mpr
        intro x hx
        simpa using hall x hx
      rw [hf]
  · intro x hx
    unfold parseMD5HashesCSV
    rw [hx]

/-- Witness for `md5_manifest_exact_name`: a manifest-named entry is skipped
unchanged, and the parser builds the map from a manifest entry's rows. -/
theorem md5_manifest_exact_name_witness :
    extractGo ["o"] [] false 0 [⟨["md5hashes.csv"], false, 3, "x", []⟩] ⟨[], 0, []⟩ =
      extractGo ["o"] [] false 0 [] ⟨[], 0, []⟩ ∧
    parseMD5HashesCSV [⟨["md5hashes.csv"], false, 3, "x", [["filename", "md5"], ["a.dcm", "ff"]]⟩] =
      Except.ok (buildMd5Map [["filename", "md5"], ["a.dcm", "ff"]]) :=
  ⟨(md5_manifest_exact_name ["o"] [] false 0 ⟨["md5hashes.csv"], false, 3, "x", []⟩ [] []
      ⟨[], 0, []⟩).1 rfl,
   (md5_manifest_exact_name ["o"] [] false 0 ⟨["md5hashes.csv"], false, 3, "x", []⟩ []
      [⟨["md5hashes.csv"], false, 3, "x", [["filename", "md5"], ["a.dcm", "ff"]]⟩]
      ⟨[], 0, []⟩).2.2.2.2
      ⟨["md5hashes.csv"], false, 3, "x", [["filename", "md5"], ["a.dcm", "ff"]]⟩ (by decide)⟩
